import Mathlib

/-
  Verification of the TheParkingLot repository (src/parking.py) against its
  natural-language specification.

  The Python module is shallowly embedded: in-place mutation of the
  ParkingLot object becomes explicit state passing, Python dictionaries
  become insertion-ordered association lists, the Python set of available
  spot ids becomes a duplicate-free list, and exceptions become an error
  field carried next to the post state, because a Python exception leaves
  all mutations performed before the raise in place.  The arbitrary element
  returned by Python set.pop is modelled as the head of the list; every
  concrete counterexample below uses a one-element set, where any pop
  implementation is forced to return that element.  Event callbacks run
  synchronously while the lock is held, so each emitted event records the
  lot state observed at the moment of firing.  Spot ids are Python ints,
  modelled as Int (the isinstance int guard is outside the embedding; the
  negative-id guard of the source is kept).  The reentrant lock and the
  callback registry administration carry no state relevant to the claims
  and are not modelled.
-/

/-- Python dict lookup on an insertion-ordered association list. -/
def dictGet {K V : Type} [DecidableEq K] : List (K × V) → K → Option V
  | [], _ => none
  | (k, v) :: d, k0 => if k = k0 then some v else dictGet d k0

/-- Python dict assignment: overwrite an existing key in place, otherwise
append at the end, as insertion order is preserved. -/
def dictSet {K V : Type} [DecidableEq K] : List (K × V) → K → V → List (K × V)
  | [], k, v => [(k, v)]
  | (a, b) :: d, k, v => if a = k then (k, v) :: d else (a, b) :: dictSet d k v

/-- Python dict.pop: remove the entry with the given key. -/
def dictPop {K V : Type} [DecidableEq K] (d : List (K × V)) (k : K) : List (K × V) :=
  d.filter (fun p => decide (p.1 ≠ k))

/-- Python set.add on the duplicate-free list model of a set. -/
def setAdd (s : List Int) (x : Int) : List Int :=
  if x ∈ s then s else s ++ [x]

/-- Python set.discard on the duplicate-free list model of a set. -/
def setDiscard (s : List Int) (x : Int) : List Int :=
  s.filter (fun y => decide (y ≠ x))

/-- Python str.strip(): drop leading and trailing whitespace.  Defined
structurally over the character list so that concrete instances evaluate. -/
def pyStrip (s : String) : String :=
  String.mk (((s.data.dropWhile Char.isWhitespace).reverse.dropWhile Char.isWhitespace).reverse)

/-- The Vehicle value record of the source (class Vehicle). -/
structure Vehicle where
  vehicle_id : String
  vehicle_type : String
  vehicle_make : Option String
  vehicle_model : Option String
  vehicle_color : Option String
deriving DecidableEq

/-- The validation performed by the Vehicle constructor: id and type are
non-empty after stripping whitespace. -/
def Vehicle.valid (v : Vehicle) : Prop :=
  pyStrip v.vehicle_id ≠ "" ∧ pyStrip v.vehicle_type ≠ ""

/-- A dynamically typed Python argument: either a Vehicle instance or some
other object, used to model the isinstance guards of the source. -/
inductive PyValue
  | vehicle (v : Vehicle)
  | other (desc : String)
deriving DecidableEq

/-- The concrete subclass a spot belongs to (StandardParkingSpot or
ElectricVehicleParkingSpot with its charging_port flag). -/
inductive SpotKind
  | standard
  | electric (charging_port : Bool)
deriving DecidableEq

/-- A parking spot (class BaseParkingSpot and its two subclasses, collapsed
into one record tagged by SpotKind). -/
structure BaseParkingSpot where
  spot_id : Int
  kind : SpotKind
  vehicle : Option Vehicle
deriving DecidableEq

/-- Constructor StandardParkingSpot(spot_id). -/
def StandardParkingSpot (spot_id : Int) : BaseParkingSpot :=
  ⟨spot_id, SpotKind.standard, none⟩

/-- Constructor ElectricVehicleParkingSpot(spot_id, charging_port). -/
def ElectricVehicleParkingSpot (spot_id : Int) (charging_port : Bool) : BaseParkingSpot :=
  ⟨spot_id, SpotKind.electric charging_port, none⟩

/-- Python exception classes raised by the module, with their messages. -/
inductive Err
  | typeError (msg : String)
  | valueError (msg : String)
  | runtimeError (msg : String)
deriving DecidableEq

def msgNotVehicle : String := "Expected a Vehicle instance."
def msgAlreadyParked : String := "Vehicle already parked."
def msgNoSpots : String := "No available spots left."
def msgBadSpotId : String := "Spot ID must be a non-negative integer."
def msgBadVehicleId : String := "Invalid vehicle ID: must be a non-empty string."
def msgInvalidSpot (sid : Int) : String :=
  "Invalid spot ID: " ++ toString sid ++ ". The spot does not exist."
def msgOccupied (sid : Int) : String :=
  "Spot " ++ toString sid ++ " is already occupied."
def msgElectricOnly (sid : Int) : String :=
  "Spot " ++ toString sid ++ " supports only electric vehicles."
def msgSpotEmpty (sid : Int) : String :=
  "Spot " ++ toString sid ++ " is already empty"
def msgSpotEmptyDot (sid : Int) : String :=
  "Spot " ++ toString sid ++ " is already empty."
def msgVehicleNotFound (vid : String) : String :=
  "Vehicle " ++ vid ++ " not found"
def msgUnknownSpotType (ty : String) : String :=
  "Unknown parking spot type: " ++ ty

/-- Property is_available of BaseParkingSpot: no vehicle is parked. -/
def BaseParkingSpot.is_available (spot : BaseParkingSpot) : Bool :=
  spot.vehicle.isNone

/-- park_vehicle of StandardParkingSpot and of ElectricVehicleParkingSpot,
dispatched on the kind tag.  Both start with the isinstance guard; the
electric variant checks the vehicle type before occupancy. -/
def BaseParkingSpot.park_vehicle (spot : BaseParkingSpot) (arg : PyValue) :
    Except Err BaseParkingSpot :=
  match arg with
  | PyValue.other _ => Except.error (Err.typeError msgNotVehicle)
  | PyValue.vehicle v =>
    match spot.kind with
    | SpotKind.standard =>
      if !spot.is_available then
        Except.error (Err.valueError (msgOccupied spot.spot_id))
      else
        Except.ok { spot with vehicle := some v }
    | SpotKind.electric _ =>
      if v.vehicle_type ≠ "electric" then
        Except.error (Err.valueError (msgElectricOnly spot.spot_id))
      else if !spot.is_available then
        Except.error (Err.valueError (msgOccupied spot.spot_id))
      else
        Except.ok { spot with vehicle := some v }

/-- unpark_vehicle of BaseParkingSpot. -/
def BaseParkingSpot.unpark_vehicle (spot : BaseParkingSpot) : Except Err BaseParkingSpot :=
  if spot.is_available then
    Except.error (Err.runtimeError (msgSpotEmpty spot.spot_id))
  else
    Except.ok { spot with vehicle := none }

/-- The mutable state of class ParkingLot. -/
structure ParkingLot where
  parking_spots : List (Int × BaseParkingSpot)
  vehicle_to_spot : List (String × Int)
  available_spots : List Int
deriving DecidableEq

/-- An event fired through trigger_event.  Callbacks run synchronously
while the lock is held, so each event also records the lot state they
observe at the moment of firing. -/
inductive Event
  | vehicle_parked (vehicle : Vehicle) (spot : BaseParkingSpot) (lotAtFire : ParkingLot)
  | spot_freed (spot : BaseParkingSpot) (lotAtFire : ParkingLot)
  | vehicle_unparked (vehicle_id : String) (spot : BaseParkingSpot) (lotAtFire : ParkingLot)
deriving DecidableEq

/-- Outcome of a mutating lot operation: the post state (mutations before a
raise are kept, as in Python), the events fired, and the exception if one
was raised. -/
structure OpResult where
  lot : ParkingLot
  events : List Event
  err : Option Err
deriving DecidableEq

/-- Outcome of add_spot, whose normal return value is Optional[spot]. -/
structure AddResult where
  lot : ParkingLot
  ret : Option BaseParkingSpot
  err : Option Err
deriving DecidableEq

/-- Outcome of the internal free helper; spot is the spot object after the
call (the same object aliased inside parking_spots). -/
structure FreeResult where
  lot : ParkingLot
  events : List Event
  spot : BaseParkingSpot
  err : Option Err
deriving DecidableEq

/-- The freshly constructed empty lot. -/
def ParkingLot.empty : ParkingLot := ⟨[], [], []⟩

/-- Internal helper (Python name with a leading underscore): validate a
spot id and fetch the spot; read-only. -/
def ParkingLot.get_spot_or_raise (lot : ParkingLot) (spot_id : Int) :
    Except Err BaseParkingSpot :=
  if spot_id < 0 then
    Except.error (Err.valueError msgBadSpotId)
  else
    match dictGet lot.parking_spots spot_id with
    | none => Except.error (Err.valueError (msgInvalidSpot spot_id))
    | some spot => Except.ok spot

/-- Internal helper: pop an arbitrary id from available_spots (modelled as
the head), then fetch the spot.  The pop is a mutation that is kept even
when the subsequent lookup raises, so the error branch carries the popped
state. -/
def ParkingLot.find_available_spot (lot : ParkingLot) :
    Except (Err × ParkingLot) (BaseParkingSpot × ParkingLot) :=
  match lot.available_spots with
  | [] => Except.error (Err.runtimeError msgNoSpots, lot)
  | spot_id :: rest =>
    let lot1 : ParkingLot := { lot with available_spots := rest }
    match lot1.get_spot_or_raise spot_id with
    | Except.error e => Except.error (e, lot1)
    | Except.ok spot => Except.ok (spot, lot1)

/-- add_spot of ParkingLot.  The new key is known absent, so the dict
insertion is an append. -/
def ParkingLot.add_spot (lot : ParkingLot) (spot_id : Int) (spot_type : String) : AddResult :=
  if spot_id < 0 then
    ⟨lot, none, some (Err.valueError msgBadSpotId)⟩
  else if (dictGet lot.parking_spots spot_id).isSome then
    ⟨lot, none, none⟩
  else if spot_type = "standard" then
    let spot := StandardParkingSpot spot_id
    ⟨⟨lot.parking_spots ++ [(spot_id, spot)], lot.vehicle_to_spot,
      setAdd lot.available_spots spot_id⟩, some spot, none⟩
  else if spot_type = "electric" then
    let spot := ElectricVehicleParkingSpot spot_id true
    ⟨⟨lot.parking_spots ++ [(spot_id, spot)], lot.vehicle_to_spot,
      setAdd lot.available_spots spot_id⟩, some spot, none⟩
  else
    ⟨lot, none, some (Err.valueError (msgUnknownSpotType spot_type))⟩

/-- park_vehicle of ParkingLot.  The spot object returned by the resolution
step is aliased inside parking_spots, so the in-place mutation performed by
the spot-level park becomes a dict update at the spot own id. -/
def ParkingLot.park_vehicle (lot : ParkingLot) (arg : PyValue) (spot_id : Option Int) : OpResult :=
  match arg with
  | PyValue.other _ => ⟨lot, [], some (Err.typeError msgNotVehicle)⟩
  | PyValue.vehicle vehicle =>
    if (dictGet lot.vehicle_to_spot vehicle.vehicle_id).isSome then
      ⟨lot, [], some (Err.runtimeError msgAlreadyParked)⟩
    else
      let resolved : Except (Err × ParkingLot) (BaseParkingSpot × ParkingLot) :=
        match spot_id with
        | none => lot.find_available_spot
        | some sid =>
          match lot.get_spot_or_raise sid with
          | Except.error e => Except.error (e, lot)
          | Except.ok spot =>
            if !spot.is_available then
              Except.error (Err.valueError (msgOccupied spot.spot_id), lot)
            else
              Except.ok (spot, lot)
      match resolved with
      | Except.error (e, lot1) => ⟨lot1, [], some e⟩
      | Except.ok (spot, lot1) =>
        match spot.park_vehicle arg with
        | Except.error e => ⟨lot1, [], some e⟩
        | Except.ok spotP =>
          let lot2 : ParkingLot :=
            ⟨dictSet lot1.parking_spots spotP.spot_id spotP,
             dictSet lot1.vehicle_to_spot vehicle.vehicle_id spotP.spot_id,
             setDiscard lot1.available_spots spotP.spot_id⟩
          ⟨lot2, [Event.vehicle_parked vehicle spotP lot2], none⟩

/-- Internal helper (Python name with a leading underscore): free a spot
and update available_spots, firing spot_freed.  The already-empty guard
raises before any mutation. -/
def ParkingLot.free_spot (lot : ParkingLot) (spot : BaseParkingSpot) : FreeResult :=
  if spot.is_available then
    ⟨lot, [], spot, some (Err.runtimeError (msgSpotEmptyDot spot.spot_id))⟩
  else
    match spot.unpark_vehicle with
    | Except.error e => ⟨lot, [], spot, some e⟩
    | Except.ok spotF =>
      let lotF : ParkingLot :=
        ⟨dictSet lot.parking_spots spotF.spot_id spotF,
         lot.vehicle_to_spot,
         setAdd lot.available_spots spotF.spot_id⟩
      ⟨lotF, [Event.spot_freed spotF lotF], spotF, none⟩

/-- unpark_vehicle of ParkingLot.  The reverse-index entry is popped before
the spot is fetched and freed, so a raise in those later steps keeps the
index mutation. -/
def ParkingLot.unpark_vehicle (lot : ParkingLot) (vehicle_id : String) : OpResult :=
  if pyStrip vehicle_id = "" then
    ⟨lot, [], some (Err.valueError msgBadVehicleId)⟩
  else
    match dictGet lot.vehicle_to_spot vehicle_id with
    | none => ⟨lot, [], some (Err.valueError (msgVehicleNotFound vehicle_id))⟩
    | some spot_id =>
      let lot1 : ParkingLot := { lot with vehicle_to_spot := dictPop lot.vehicle_to_spot vehicle_id }
      match lot1.get_spot_or_raise spot_id with
      | Except.error e => ⟨lot1, [], some e⟩
      | Except.ok spot =>
        let r := lot1.free_spot spot
        match r.err with
        | some e => ⟨r.lot, r.events, some e⟩
        | none => ⟨r.lot, r.events ++ [Event.vehicle_unparked vehicle_id r.spot r.lot], none⟩

/-- release_spot of ParkingLot: fetch and free, never touching the reverse
index. -/
def ParkingLot.release_spot (lot : ParkingLot) (spot_id : Int) : OpResult :=
  match lot.get_spot_or_raise spot_id with
  | Except.error e => ⟨lot, [], some e⟩
  | Except.ok spot =>
    let r := lot.free_spot spot
    ⟨r.lot, r.events, r.err⟩

/-- Lots reachable from the freshly constructed lot by the public mutating
operations. -/
inductive ParkingLot.Reachable : ParkingLot → Prop
  | init : ParkingLot.Reachable ParkingLot.empty
  | add_spot (l : ParkingLot) (sid : Int) (ty : String) :
      ParkingLot.Reachable l → ParkingLot.Reachable (l.add_spot sid ty).lot
  | park_vehicle (l : ParkingLot) (arg : PyValue) (sid : Option Int) :
      ParkingLot.Reachable l → ParkingLot.Reachable (l.park_vehicle arg sid).lot
  | unpark_vehicle (l : ParkingLot) (vid : String) :
      ParkingLot.Reachable l → ParkingLot.Reachable (l.unpark_vehicle vid).lot
  | release_spot (l : ParkingLot) (sid : Int) :
      ParkingLot.Reachable l → ParkingLot.Reachable (l.release_spot sid).lot

/-- Key consistency of the spot registry: each spot is stored under its own
id.  Established by add_spot and maintained by every operation. -/
def ParkingLot.KeyInv (lot : ParkingLot) : Prop :=
  ∀ sid spot, dictGet lot.parking_spots sid = some spot → spot.spot_id = sid

/-- Free-set consistency of the spec: a registered id is in available_spots
exactly when the spot has no occupant. -/
def ParkingLot.FreeSetInv (lot : ParkingLot) : Prop :=
  ∀ sid spot, dictGet lot.parking_spots sid = some spot →
    (sid ∈ lot.available_spots ↔ spot.vehicle = none)

/-- Index consistency of the spec: every reverse-index entry points at a
registered spot whose occupant carries that vehicle id. -/
def ParkingLot.IndexInv (lot : ParkingLot) : Prop :=
  ∀ vid sid, dictGet lot.vehicle_to_spot vid = some sid →
    ∃ spot v, dictGet lot.parking_spots sid = some spot ∧
      spot.vehicle = some v ∧ v.vehicle_id = vid

/-- Example vehicles and lots used by concrete witnesses below. -/
def carSedan : Vehicle := ⟨"CAR001", "Sedan", some "Toyota", some "Corolla", some "Blue"⟩

def carTruck : Vehicle := ⟨"CAR002", "Truck", none, none, none⟩

def carElectric : Vehicle := ⟨"EV0001", "electric", none, none, none⟩

/-- A lot with one electric spot 0. -/
def exLotElectric : ParkingLot := (ParkingLot.empty.add_spot 0 "electric").lot

/-- The lot left behind by an auto-assign park of a sedan into the lot with
one electric spot: the park raises, yet spot 0 has been popped. -/
def exLotPopped : ParkingLot :=
  (exLotElectric.park_vehicle (PyValue.vehicle carSedan) none).lot

/-- A lot with one standard spot 0 occupied by carSedan. -/
def exLotParked : ParkingLot :=
  ((ParkingLot.empty.add_spot 0 "standard").lot.park_vehicle
    (PyValue.vehicle carSedan) (some 0)).lot

/-- The lot after release_spot 0 on exLotParked: spot 0 is free again but
the reverse-index entry of carSedan is stale. -/
def exLotStale : ParkingLot := (exLotParked.release_spot 0).lot

/-- A lot with one standard spot 3. -/
def exLotStd3 : ParkingLot := (ParkingLot.empty.add_spot 3 "standard").lot

/-- A lot with one electric spot 3. -/
def exLotElec3 : ParkingLot := (ParkingLot.empty.add_spot 3 "electric").lot

theorem dictGet_append_of_none {K V : Type} [DecidableEq K] {d1 : List (K × V)} {k : K}
    (d2 : List (K × V)) (h : dictGet d1 k = none) :
    dictGet (d1 ++ d2) k = dictGet d2 k := by
  induction d1 with
  | nil => rfl
  | cons p t ih =>
    obtain ⟨a, b⟩ := p
    by_cases hak : a = k
    · simp [dictGet, hak] at h
    · simp only [dictGet, hak, if_false, List.cons_append] at h ⊢
      exact ih h

theorem dictGet_append_of_some {K V : Type} [DecidableEq K] {d1 : List (K × V)} {k : K} {v : V}
    (d2 : List (K × V)) (h : dictGet d1 k = some v) :
    dictGet (d1 ++ d2) k = some v := by
  induction d1 with
  | nil => simp [dictGet] at h
  | cons p t ih =>
    obtain ⟨a, b⟩ := p
    by_cases hak : a = k
    · simp only [dictGet, hak, if_true, List.cons_append] at h ⊢
      exact h
    · simp only [dictGet, hak, if_false, List.cons_append] at h ⊢
      exact ih h

theorem dictGet_dictSet_self {K V : Type} [DecidableEq K] (d : List (K × V)) (k : K) (v : V) :
    dictGet (dictSet d k v) k = some v := by
  induction d with
  | nil => simp [dictSet, dictGet]
  | cons p t ih =>
    obtain ⟨a, b⟩ := p
    by_cases hak : a = k
    · subst hak
      simp [dictSet, dictGet]
    · simpa [dictSet, dictGet, hak] using ih

theorem dictGet_dictSet_ne {K V : Type} [DecidableEq K] (d : List (K × V)) (k k0 : K) (v : V)
    (h : k0 ≠ k) :
    dictGet (dictSet d k v) k0 = dictGet d k0 := by
  induction d with
  | nil => simp [dictSet, dictGet, Ne.symm h]
  | cons p t ih =>
    obtain ⟨a, b⟩ := p
    by_cases hak : a = k
    · subst hak
      simp [dictSet, dictGet, Ne.symm h]
    · by_cases hak0 : a = k0
      · subst hak0
        simp [dictSet, dictGet, hak]
      · simpa [dictSet, dictGet, hak, hak0] using ih

theorem dictGet_dictPop_self {K V : Type} [DecidableEq K] (d : List (K × V)) (k : K) :
    dictGet (dictPop d k) k = none := by
  induction d with
  | nil => rfl
  | cons p t ih =>
    obtain ⟨a, b⟩ := p
    by_cases hak : a = k
    · simpa [dictPop, hak] using ih
    · simpa [dictPop, dictGet, hak] using ih

theorem dictGet_dictPop_ne {K V : Type} [DecidableEq K] (d : List (K × V)) (k k0 : K)
    (h : k0 ≠ k) :
    dictGet (dictPop d k) k0 = dictGet d k0 := by
  induction d with
  | nil => rfl
  | cons p t ih =>
    obtain ⟨a, b⟩ := p
    by_cases hak : a = k
    · subst hak
      simpa [dictPop, dictGet, Ne.symm h] using ih
    · by_cases hak0 : a = k0
      · subst hak0
        simp [dictPop, dictGet, List.filter_cons, hak]
      · simpa [dictPop, dictGet, List.filter_cons, hak, hak0] using ih

theorem mem_setAdd (s : List Int) (x y : Int) : y ∈ setAdd s x ↔ y ∈ s ∨ y = x := by
  unfold setAdd
  split
  case isTrue hx =>
    constructor
    · exact Or.inl
    · rintro (h | rfl)
      · exact h
      · exact hx
  case isFalse _ => simp

theorem mem_setDiscard (s : List Int) (x y : Int) : y ∈ setDiscard s x ↔ y ∈ s ∧ y ≠ x := by
  simp [setDiscard, List.mem_filter]

theorem get_spot_or_raise_ok_iff (l : ParkingLot) (sid : Int) (spot : BaseParkingSpot) :
    l.get_spot_or_raise sid = Except.ok spot ↔
      0 ≤ sid ∧ dictGet l.parking_spots sid = some spot := by
  unfold ParkingLot.get_spot_or_raise
  split
  case isTrue h =>
    simp only [Int.not_le.mpr h, false_and, iff_false]
    intro hc
    exact Except.noConfusion hc
  case isFalse h =>
    have h0 : 0 ≤ sid := Int.not_lt.mp h
    cases hd : dictGet l.parking_spots sid with
    | none => simp [hd, h0]
    | some s => simp [hd, h0, eq_comm]

theorem get_spot_or_raise_of_neg (l : ParkingLot) (sid : Int) (h : sid < 0) :
    l.get_spot_or_raise sid = Except.error (Err.valueError msgBadSpotId) := by
  unfold ParkingLot.get_spot_or_raise
  simp [h]

theorem get_spot_or_raise_of_missing (l : ParkingLot) (sid : Int) (h0 : 0 ≤ sid)
    (h : dictGet l.parking_spots sid = none) :
    l.get_spot_or_raise sid = Except.error (Err.valueError (msgInvalidSpot sid)) := by
  unfold ParkingLot.get_spot_or_raise
  simp [Int.not_lt.mpr h0, h]

theorem get_spot_or_raise_of_found (l : ParkingLot) (sid : Int) (spot : BaseParkingSpot)
    (h0 : 0 ≤ sid) (h : dictGet l.parking_spots sid = some spot) :
    l.get_spot_or_raise sid = Except.ok spot := by
  unfold ParkingLot.get_spot_or_raise
  simp [Int.not_lt.mpr h0, h]

theorem spot_park_standard_free (spot : BaseParkingSpot) (v : Vehicle)
    (h1 : spot.kind = SpotKind.standard) (h2 : spot.vehicle = none) :
    spot.park_vehicle (PyValue.vehicle v) = Except.ok { spot with vehicle := some v } := by
  unfold BaseParkingSpot.park_vehicle
  rw [h1]
  simp [BaseParkingSpot.is_available, h2]

theorem spot_park_electric_reject (spot : BaseParkingSpot) (v : Vehicle) (c : Bool)
    (h1 : spot.kind = SpotKind.electric c) (h2 : v.vehicle_type ≠ "electric") :
    spot.park_vehicle (PyValue.vehicle v)
      = Except.error (Err.valueError (msgElectricOnly spot.spot_id)) := by
  unfold BaseParkingSpot.park_vehicle
  rw [h1]
  simp [h2]

theorem spot_park_electric_ok (spot : BaseParkingSpot) (v : Vehicle) (c : Bool)
    (h1 : spot.kind = SpotKind.electric c) (h2 : v.vehicle_type = "electric")
    (h3 : spot.vehicle = none) :
    spot.park_vehicle (PyValue.vehicle v) = Except.ok { spot with vehicle := some v } := by
  unfold BaseParkingSpot.park_vehicle
  rw [h1]
  simp [BaseParkingSpot.is_available, h2, h3]

theorem spot_park_ok_shape (spot : BaseParkingSpot) (v : Vehicle) (spotP : BaseParkingSpot)
    (h : spot.park_vehicle (PyValue.vehicle v) = Except.ok spotP) :
    spot.vehicle = none ∧ spotP = { spot with vehicle := some v } := by
  obtain ⟨sid, kind, veh⟩ := spot
  cases kind with
  | standard =>
    cases veh with
    | none =>
      simp only [BaseParkingSpot.park_vehicle, BaseParkingSpot.is_available, Option.isNone_none,
        Bool.not_true, Bool.false_eq_true, if_false, Except.ok.injEq] at h
      exact ⟨rfl, h.symm⟩
    | some w =>
      simp [BaseParkingSpot.park_vehicle, BaseParkingSpot.is_available] at h
  | electric c =>
    by_cases ht : v.vehicle_type = "electric"
    · cases veh with
      | none =>
        simp only [BaseParkingSpot.park_vehicle, BaseParkingSpot.is_available, ht,
          Option.isNone_none, ne_eq, not_true_eq_false, Bool.not_true, Bool.false_eq_true,
          if_false, Except.ok.injEq] at h
        exact ⟨rfl, h.symm⟩
      | some w =>
        simp [BaseParkingSpot.park_vehicle, BaseParkingSpot.is_available, ht] at h
    · simp [BaseParkingSpot.park_vehicle, ht] at h

theorem free_spot_of_empty (l : ParkingLot) (spot : BaseParkingSpot)
    (h : spot.vehicle = none) :
    l.free_spot spot = ⟨l, [], spot, some (Err.runtimeError (msgSpotEmptyDot spot.spot_id))⟩ := by
  unfold ParkingLot.free_spot
  simp [BaseParkingSpot.is_available, h]

theorem free_spot_of_occupied (l : ParkingLot) (spot : BaseParkingSpot) (w : Vehicle)
    (h : spot.vehicle = some w) :
    l.free_spot spot =
      ⟨⟨dictSet l.parking_spots spot.spot_id { spot with vehicle := none },
        l.vehicle_to_spot, setAdd l.available_spots spot.spot_id⟩,
       [Event.spot_freed { spot with vehicle := none }
          ⟨dictSet l.parking_spots spot.spot_id { spot with vehicle := none },
           l.vehicle_to_spot, setAdd l.available_spots spot.spot_id⟩],
       { spot with vehicle := none }, none⟩ := by
  unfold ParkingLot.free_spot BaseParkingSpot.unpark_vehicle
  simp [BaseParkingSpot.is_available, h]

theorem add_spot_cases (l : ParkingLot) (sid : Int) (ty : String) :
    ((l.add_spot sid ty).err.isSome ∧ (l.add_spot sid ty).lot = l)
  ∨ ((l.add_spot sid ty).err = none ∧ (l.add_spot sid ty).ret = none ∧ (l.add_spot sid ty).lot = l)
  ∨ (∃ spot, 0 ≤ sid ∧ dictGet l.parking_spots sid = none ∧ spot.spot_id = sid ∧
      spot.vehicle = none ∧ (l.add_spot sid ty).err = none ∧
      (l.add_spot sid ty).lot =
        ⟨l.parking_spots ++ [(sid, spot)], l.vehicle_to_spot, setAdd l.available_spots sid⟩) := by
  unfold ParkingLot.add_spot
  by_cases hneg : sid < 0
  · simp [hneg]
  · have h0 : 0 ≤ sid := Int.not_lt.mp hneg
    cases hd : dictGet l.parking_spots sid with
    | some s => simp [hneg, hd]
    | none =>
      by_cases hstd : ty = "standard"
      · refine Or.inr (Or.inr ⟨StandardParkingSpot sid, h0, rfl, rfl, rfl, ?_, ?_⟩) <;>
          simp [hneg, hd, hstd]
      · by_cases hel : ty = "electric"
        · refine Or.inr (Or.inr ⟨ElectricVehicleParkingSpot sid true, h0, rfl, rfl, rfl, ?_, ?_⟩) <;>
            simp [hneg, hd, hstd, hel]
        · simp [hneg, hd, hstd, hel]

theorem park_vehicle_cases (l : ParkingLot) (arg : PyValue) (osid : Option Int) :
    ((l.park_vehicle arg osid).lot = l)
  ∨ (osid = none ∧ (l.park_vehicle arg osid).err.isSome ∧
      ∃ sid rest, l.available_spots = sid :: rest ∧
        (l.park_vehicle arg osid).lot = { l with available_spots := rest })
  ∨ (∃ v sid spot avail1, arg = PyValue.vehicle v ∧ (l.park_vehicle arg osid).err = none ∧
      dictGet l.vehicle_to_spot v.vehicle_id = none ∧ 0 ≤ sid ∧
      dictGet l.parking_spots sid = some spot ∧ spot.vehicle = none ∧
      (avail1 = l.available_spots ∨ l.available_spots = sid :: avail1) ∧
      (l.park_vehicle arg osid).lot =
        ⟨dictSet l.parking_spots spot.spot_id { spot with vehicle := some v },
         dictSet l.vehicle_to_spot v.vehicle_id spot.spot_id,
         setDiscard avail1 spot.spot_id⟩) := by
  cases arg with
  | other desc => exact Or.inl rfl
  | vehicle v =>
    by_cases hidx : (dictGet l.vehicle_to_spot v.vehicle_id).isSome
    · left
      unfold ParkingLot.park_vehicle
      simp [hidx]
    · have hidxn : dictGet l.vehicle_to_spot v.vehicle_id = none := by
        cases hi : dictGet l.vehicle_to_spot v.vehicle_id
        · rfl
        · rw [hi] at hidx; simp at hidx
      cases osid with
      | some sid =>
        by_cases hneg : sid < 0
        · left
          unfold ParkingLot.park_vehicle
          simp [hidx, get_spot_or_raise_of_neg l sid hneg]
        · have h0 : 0 ≤ sid := Int.not_lt.mp hneg
          cases hd : dictGet l.parking_spots sid with
          | none =>
            left
            unfold ParkingLot.park_vehicle
            simp [hidx, get_spot_or_raise_of_missing l sid h0 hd]
          | some spot =>
            cases hveh : spot.vehicle with
            | some w =>
              left
              unfold ParkingLot.park_vehicle
              simp [hidx, get_spot_or_raise_of_found l sid spot h0 hd,
                BaseParkingSpot.is_available, hveh]
            | none =>
              cases hp : spot.park_vehicle (PyValue.vehicle v) with
              | error e =>
                left
                unfold ParkingLot.park_vehicle
                simp [hidx, get_spot_or_raise_of_found l sid spot h0 hd,
                  BaseParkingSpot.is_available, hveh, hp]
              | ok spotP =>
                obtain ⟨-, hPe⟩ := spot_park_ok_shape spot v spotP hp
                subst hPe
                refine Or.inr (Or.inr ⟨v, sid, spot, l.available_spots, rfl, ?_, hidxn, h0,
                  hd, hveh, Or.inl rfl, ?_⟩) <;>
                · unfold ParkingLot.park_vehicle
                  simp [hidx, get_spot_or_raise_of_found l sid spot h0 hd,
                    BaseParkingSpot.is_available, hveh, hp]
      | none =>
        cases ha : l.available_spots with
        | nil =>
          left
          unfold ParkingLot.park_vehicle ParkingLot.find_available_spot
          simp [hidx, ha]
        | cons sid rest =>
          by_cases hneg : sid < 0
          · refine Or.inr (Or.inl ⟨rfl, ?_, sid, rest, rfl, ?_⟩) <;>
            · unfold ParkingLot.park_vehicle ParkingLot.find_available_spot
              simp [hidx, ha, get_spot_or_raise_of_neg _ sid hneg]
          · have h0 : 0 ≤ sid := Int.not_lt.mp hneg
            cases hd : dictGet l.parking_spots sid with
            | none =>
              refine Or.inr (Or.inl ⟨rfl, ?_, sid, rest, rfl, ?_⟩) <;>
              · unfold ParkingLot.park_vehicle ParkingLot.find_available_spot
                simp [hidx, ha,
                  get_spot_or_raise_of_missing { l with available_spots := rest } sid h0 hd]
            | some spot =>
              cases hp : spot.park_vehicle (PyValue.vehicle v) with
              | error e =>
                refine Or.inr (Or.inl ⟨rfl, ?_, sid, rest, rfl, ?_⟩) <;>
                · unfold ParkingLot.park_vehicle ParkingLot.find_available_spot
                  simp [hidx, ha, hp,
                    get_spot_or_raise_of_found { l with available_spots := rest } sid spot h0 hd]
              | ok spotP =>
                obtain ⟨hveh, hPe⟩ := spot_park_ok_shape spot v spotP hp
                subst hPe
                refine Or.inr (Or.inr ⟨v, sid, spot, rest, rfl, ?_, hidxn, h0,
                  hd, hveh, Or.inr rfl, ?_⟩) <;>
                · unfold ParkingLot.park_vehicle ParkingLot.find_available_spot
                  simp [hidx, ha, hp,
                    get_spot_or_raise_of_found { l with available_spots := rest } sid spot h0 hd]

theorem unpark_vehicle_cases (l : ParkingLot) (vid : String) :
    ((l.unpark_vehicle vid).err.isSome ∧ (l.unpark_vehicle vid).lot = l)
  ∨ ((l.unpark_vehicle vid).err.isSome ∧
      ∃ sid, dictGet l.vehicle_to_spot vid = some sid ∧
        (l.unpark_vehicle vid).lot = { l with vehicle_to_spot := dictPop l.vehicle_to_spot vid })
  ∨ (∃ sid spot w, dictGet l.vehicle_to_spot vid = some sid ∧ 0 ≤ sid ∧
      dictGet l.parking_spots sid = some spot ∧ spot.vehicle = some w ∧
      (l.unpark_vehicle vid).err = none ∧
      (l.unpark_vehicle vid).lot =
        ⟨dictSet l.parking_spots spot.spot_id { spot with vehicle := none },
         dictPop l.vehicle_to_spot vid,
         setAdd l.available_spots spot.spot_id⟩) := by
  by_cases hblank : pyStrip vid = ""
  · left
    unfold ParkingLot.unpark_vehicle
    simp [hblank]
  · cases hidx : dictGet l.vehicle_to_spot vid with
    | none =>
      left
      unfold ParkingLot.unpark_vehicle
      simp [hblank, hidx]
    | some sid =>
      by_cases hneg : sid < 0
      · refine Or.inr (Or.inl ⟨?_, sid, rfl, ?_⟩) <;>
        · unfold ParkingLot.unpark_vehicle
          simp [hblank, hidx, get_spot_or_raise_of_neg _ sid hneg]
      · have h0 : 0 ≤ sid := Int.not_lt.mp hneg
        cases hd : dictGet l.parking_spots sid with
        | none =>
          refine Or.inr (Or.inl ⟨?_, sid, rfl, ?_⟩) <;>
          · unfold ParkingLot.unpark_vehicle
            simp [hblank, hidx,
              get_spot_or_raise_of_missing
                { l with vehicle_to_spot := dictPop l.vehicle_to_spot vid } sid h0 hd]
        | some spot =>
          cases hveh : spot.vehicle with
          | none =>
            refine Or.inr (Or.inl ⟨?_, sid, rfl, ?_⟩) <;>
            · unfold ParkingLot.unpark_vehicle
              simp [hblank, hidx,
                get_spot_or_raise_of_found
                  { l with vehicle_to_spot := dictPop l.vehicle_to_spot vid } sid spot h0 hd,
                free_spot_of_empty _ spot hveh]
          | some w =>
            refine Or.inr (Or.inr ⟨sid, spot, w, rfl, h0, hd, hveh, ?_, ?_⟩) <;>
            · unfold ParkingLot.unpark_vehicle
              simp [hblank, hidx,
                get_spot_or_raise_of_found
                  { l with vehicle_to_spot := dictPop l.vehicle_to_spot vid } sid spot h0 hd,
                free_spot_of_occupied _ spot w hveh]

theorem release_spot_cases (l : ParkingLot) (sid : Int) :
    ((l.release_spot sid).err.isSome ∧ (l.release_spot sid).lot = l ∧
      (l.release_spot sid).events = [])
  ∨ (∃ spot w, 0 ≤ sid ∧ dictGet l.parking_spots sid = some spot ∧ spot.vehicle = some w ∧
      (l.release_spot sid).err = none ∧
      (l.release_spot sid).lot =
        ⟨dictSet l.parking_spots spot.spot_id { spot with vehicle := none },
         l.vehicle_to_spot, setAdd l.available_spots spot.spot_id⟩) := by
  by_cases hneg : sid < 0
  · left
    unfold ParkingLot.release_spot
    simp [get_spot_or_raise_of_neg l sid hneg]
  · have h0 : 0 ≤ sid := Int.not_lt.mp hneg
    cases hd : dictGet l.parking_spots sid with
    | none =>
      left
      unfold ParkingLot.release_spot
      simp [get_spot_or_raise_of_missing l sid h0 hd]
    | some spot =>
      cases hveh : spot.vehicle with
      | none =>
        left
        unfold ParkingLot.release_spot
        simp [get_spot_or_raise_of_found l sid spot h0 hd, free_spot_of_empty l spot hveh]
      | some w =>
        refine Or.inr ⟨spot, w, h0, rfl, hveh, ?_, ?_⟩ <;>
        · unfold ParkingLot.release_spot
          simp [get_spot_or_raise_of_found l sid spot h0 hd, free_spot_of_occupied l spot w hveh]

theorem keyInv_empty : ParkingLot.empty.KeyInv := by
  intro sid spot h
  simp [ParkingLot.empty, dictGet] at h

theorem freeSetInv_empty : ParkingLot.empty.FreeSetInv := by
  intro sid spot h
  simp [ParkingLot.empty, dictGet] at h

theorem indexInv_empty : ParkingLot.empty.IndexInv := by
  intro vid sid h
  simp [ParkingLot.empty, dictGet] at h

theorem keyInv_of_dictSet (l lN : ParkingLot) (hk : l.KeyInv) (spotN : BaseParkingSpot)
    (hN : lN.parking_spots = dictSet l.parking_spots spotN.spot_id spotN) : lN.KeyInv := by
  intro sid spot h
  rw [hN] at h
  by_cases hs : sid = spotN.spot_id
  · subst hs
    rw [dictGet_dictSet_self] at h
    cases h
    rfl
  · rw [dictGet_dictSet_ne _ _ _ _ hs] at h
    exact hk sid spot h

theorem keyInv_of_append (l lN : ParkingLot) (hk : l.KeyInv) (sid : Int)
    (spotN : BaseParkingSpot) (hid : spotN.spot_id = sid)
    (hN : lN.parking_spots = l.parking_spots ++ [(sid, spotN)]) : lN.KeyInv := by
  intro s spot h
  rw [hN] at h
  cases hd : dictGet l.parking_spots s with
  | some sp =>
    rw [dictGet_append_of_some _ hd] at h
    cases h
    exact hk s _ hd
  | none =>
    rw [dictGet_append_of_none _ hd] at h
    by_cases hs : sid = s
    · subst hs
      simp [dictGet] at h
      subst h
      exact hid
    · simp [dictGet, hs] at h

theorem keyInv_add_spot (l : ParkingLot) (sid : Int) (ty : String) (hk : l.KeyInv) :
    (l.add_spot sid ty).lot.KeyInv := by
  rcases add_spot_cases l sid ty with ⟨-, h⟩ | ⟨-, -, h⟩ | ⟨spot, -, hfresh, hid, -, -, h⟩
  · rw [h]; exact hk
  · rw [h]; exact hk
  · exact keyInv_of_append l _ hk sid spot hid (by rw [h])

theorem keyInv_park_vehicle (l : ParkingLot) (arg : PyValue) (osid : Option Int)
    (hk : l.KeyInv) : (l.park_vehicle arg osid).lot.KeyInv := by
  rcases park_vehicle_cases l arg osid with h | ⟨-, -, sid, rest, -, h⟩ |
    ⟨v, sid, spot, a1, -, -, -, -, -, -, -, h⟩
  · rw [h]; exact hk
  · rw [h]; exact fun s sp hh => hk s sp hh
  · exact keyInv_of_dictSet l _ hk { spot with vehicle := some v } (by rw [h])

theorem keyInv_unpark_vehicle (l : ParkingLot) (vid : String) (hk : l.KeyInv) :
    (l.unpark_vehicle vid).lot.KeyInv := by
  rcases unpark_vehicle_cases l vid with ⟨-, h⟩ | ⟨-, sid, -, h⟩ |
    ⟨sid, spot, w, -, -, -, -, -, h⟩
  · rw [h]; exact hk
  · rw [h]; exact fun s sp hh => hk s sp hh
  · exact keyInv_of_dictSet l _ hk { spot with vehicle := none } (by rw [h])

theorem keyInv_release_spot (l : ParkingLot) (sid : Int) (hk : l.KeyInv) :
    (l.release_spot sid).lot.KeyInv := by
  rcases release_spot_cases l sid with ⟨-, h, -⟩ | ⟨spot, w, -, -, -, -, h⟩
  · rw [h]; exact hk
  · exact keyInv_of_dictSet l _ hk { spot with vehicle := none } (by rw [h])

/-- Key consistency holds in every reachable lot. -/
theorem reachable_keyInv (l : ParkingLot) (h : l.Reachable) : l.KeyInv := by
  induction h with
  | init => exact keyInv_empty
  | add_spot l0 sid ty _ ih => exact keyInv_add_spot l0 sid ty ih
  | park_vehicle l0 arg osid _ ih => exact keyInv_park_vehicle l0 arg osid ih
  | unpark_vehicle l0 vid _ ih => exact keyInv_unpark_vehicle l0 vid ih
  | release_spot l0 sid _ ih => exact keyInv_release_spot l0 sid ih

theorem freeSetInv_add_spot (l : ParkingLot) (sid : Int) (ty : String) (hf : l.FreeSetInv) :
    (l.add_spot sid ty).lot.FreeSetInv := by
  rcases add_spot_cases l sid ty with ⟨-, h⟩ | ⟨-, -, h⟩ | ⟨spotN, -, hfresh, -, hvehN, -, h⟩
  · rw [h]; exact hf
  · rw [h]; exact hf
  · rw [h]
    intro s sp hsp
    simp only at hsp ⊢
    cases hd : dictGet l.parking_spots s with
    | some sp0 =>
      rw [dictGet_append_of_some _ hd] at hsp
      cases hsp
      have hne : s ≠ sid := by
        intro he
        rw [he, hfresh] at hd
        exact Option.noConfusion hd
      rw [mem_setAdd]
      constructor
      · rintro (hm | he)
        · exact (hf s _ hd).mp hm
        · exact absurd he hne
      · intro hv
        exact Or.inl ((hf s _ hd).mpr hv)
    | none =>
      rw [dictGet_append_of_none _ hd] at hsp
      by_cases hs : sid = s
      · subst hs
        simp [dictGet] at hsp
        subst hsp
        rw [mem_setAdd]
        simp [hvehN]
      · simp [dictGet, hs] at hsp

theorem freeSetInv_park_vehicle (l : ParkingLot) (arg : PyValue) (osid : Option Int)
    (hk : l.KeyInv) (hf : l.FreeSetInv)
    (hcase : osid.isSome ∨ (l.park_vehicle arg osid).err = none) :
    (l.park_vehicle arg osid).lot.FreeSetInv := by
  rcases park_vehicle_cases l arg osid with h | ⟨hnone, hsome, -, -, -, -⟩ |
    ⟨v, sid, spot, a1, -, -, -, -, hd, hveh, ha1, h⟩
  · rw [h]; exact hf
  · exfalso
    rcases hcase with hs | he
    · rw [hnone] at hs; simp at hs
    · rw [he] at hsome; simp at hsome
  · have hkey : spot.spot_id = sid := hk sid spot hd
    rw [h, hkey]
    intro s sp hsp
    simp only at hsp ⊢
    by_cases hs : s = sid
    · subst hs
      rw [dictGet_dictSet_self] at hsp
      cases hsp
      rw [mem_setDiscard]
      simp
    · rw [dictGet_dictSet_ne _ _ _ _ hs] at hsp
      rw [mem_setDiscard]
      have hiff := hf s sp hsp
      rcases ha1 with rfl | hcons
      · constructor
        · rintro ⟨hm, -⟩
          exact hiff.mp hm
        · intro hv
          exact ⟨hiff.mpr hv, hs⟩
      · rw [hcons] at hiff
        simp only [List.mem_cons, hs, false_or] at hiff
        constructor
        · rintro ⟨hm, -⟩
          exact hiff.mp hm
        · intro hv
          exact ⟨hiff.mpr hv, hs⟩

theorem freeSetInv_unpark_vehicle (l : ParkingLot) (vid : String)
    (hk : l.KeyInv) (hf : l.FreeSetInv) : (l.unpark_vehicle vid).lot.FreeSetInv := by
  rcases unpark_vehicle_cases l vid with ⟨-, h⟩ | ⟨-, sid, -, h⟩ |
    ⟨sid, spot, w, -, -, hd, hveh, -, h⟩
  · rw [h]; exact hf
  · rw [h]; exact hf
  · have hkey : spot.spot_id = sid := hk sid spot hd
    rw [h, hkey]
    intro s sp hsp
    simp only at hsp ⊢
    by_cases hs : s = sid
    · subst hs
      rw [dictGet_dictSet_self] at hsp
      cases hsp
      rw [mem_setAdd]
      simp
    · rw [dictGet_dictSet_ne _ _ _ _ hs] at hsp
      rw [mem_setAdd]
      simp only [hs, or_false]
      exact hf s sp hsp

theorem freeSetInv_release_spot (l : ParkingLot) (sid : Int)
    (hk : l.KeyInv) (hf : l.FreeSetInv) : (l.release_spot sid).lot.FreeSetInv := by
  rcases release_spot_cases l sid with ⟨-, h, -⟩ | ⟨spot, w, -, hd, hveh, -, h⟩
  · rw [h]; exact hf
  · have hkey : spot.spot_id = sid := hk sid spot hd
    rw [h, hkey]
    intro s sp hsp
    simp only at hsp ⊢
    by_cases hs : s = sid
    · subst hs
      rw [dictGet_dictSet_self] at hsp
      cases hsp
      rw [mem_setAdd]
      simp
    · rw [dictGet_dictSet_ne _ _ _ _ hs] at hsp
      rw [mem_setAdd]
      simp only [hs, or_false]
      exact hf s sp hsp

theorem indexInv_add_spot (l : ParkingLot) (sid : Int) (ty : String) (hi : l.IndexInv) :
    (l.add_spot sid ty).lot.IndexInv := by
  rcases add_spot_cases l sid ty with ⟨-, h⟩ | ⟨-, -, h⟩ | ⟨spotN, -, -, -, -, -, h⟩
  · rw [h]; exact hi
  · rw [h]; exact hi
  · rw [h]
    intro vid s hidx
    simp only at hidx ⊢
    obtain ⟨spot0, v0, hd0, hveh0, hid0⟩ := hi vid s hidx
    exact ⟨spot0, v0, dictGet_append_of_some _ hd0, hveh0, hid0⟩

theorem indexInv_park_vehicle (l : ParkingLot) (arg : PyValue) (osid : Option Int)
    (hk : l.KeyInv) (hi : l.IndexInv) : (l.park_vehicle arg osid).lot.IndexInv := by
  rcases park_vehicle_cases l arg osid with h | ⟨-, -, sid, rest, -, h⟩ |
    ⟨v, sid, spot, a1, -, -, -, -, hd, hveh, -, h⟩
  · rw [h]; exact hi
  · rw [h]; exact hi
  · have hkey : spot.spot_id = sid := hk sid spot hd
    rw [← hkey] at hd
    rw [h]
    intro vid s hidx
    simp only at hidx ⊢
    by_cases hv : vid = v.vehicle_id
    · subst hv
      rw [dictGet_dictSet_self] at hidx
      cases hidx
      exact ⟨{ spot with vehicle := some v }, v, dictGet_dictSet_self _ _ _, rfl, rfl⟩
    · rw [dictGet_dictSet_ne _ _ _ _ hv] at hidx
      obtain ⟨spot0, v0, hd0, hveh0, hid0⟩ := hi vid s hidx
      have hs : s ≠ spot.spot_id := by
        intro he
        rw [he, hd] at hd0
        cases hd0
        rw [hveh] at hveh0
        exact Option.noConfusion hveh0
      exact ⟨spot0, v0, by rw [dictGet_dictSet_ne _ _ _ _ hs]; exact hd0, hveh0, hid0⟩

theorem indexInv_unpark_vehicle (l : ParkingLot) (vid0 : String)
    (hk : l.KeyInv) (hi : l.IndexInv) : (l.unpark_vehicle vid0).lot.IndexInv := by
  rcases unpark_vehicle_cases l vid0 with ⟨-, h⟩ | ⟨-, sid, -, h⟩ |
    ⟨sid, spot, w, hidx0, -, hd, hveh, -, h⟩
  · rw [h]; exact hi
  · rw [h]
    intro vid s hidx
    simp only at hidx ⊢
    by_cases hv : vid = vid0
    · subst hv
      rw [dictGet_dictPop_self] at hidx
      exact Option.noConfusion hidx
    · rw [dictGet_dictPop_ne _ _ _ hv] at hidx
      exact hi vid s hidx
  · have hkey : spot.spot_id = sid := hk sid spot hd
    have hw : w.vehicle_id = vid0 := by
      obtain ⟨spot0, v0, hd0, hveh0, hid0⟩ := hi vid0 sid hidx0
      rw [hd] at hd0
      cases hd0
      rw [hveh] at hveh0
      cases hveh0
      exact hid0
    rw [h, hkey]
    intro vid s hidx
    simp only at hidx ⊢
    by_cases hv : vid = vid0
    · subst hv
      rw [dictGet_dictPop_self] at hidx
      exact Option.noConfusion hidx
    · rw [dictGet_dictPop_ne _ _ _ hv] at hidx
      obtain ⟨spot0, v0, hd0, hveh0, hid0⟩ := hi vid s hidx
      have hs : s ≠ sid := by
        intro he
        rw [he, hd] at hd0
        cases hd0
        rw [hveh] at hveh0
        cases hveh0
        exact hv (hid0 ▸ hw)
      exact ⟨spot0, v0, by rw [dictGet_dictSet_ne _ _ _ _ hs]; exact hd0, hveh0, hid0⟩

theorem indexInv_release_spot (l : ParkingLot) (sid : Int)
    (hk : l.KeyInv) (hi : l.IndexInv)
    (hno : ∀ spot w, dictGet l.parking_spots sid = some spot → spot.vehicle = some w →
      dictGet l.vehicle_to_spot w.vehicle_id = none) :
    (l.release_spot sid).lot.IndexInv := by
  rcases release_spot_cases l sid with ⟨-, h, -⟩ | ⟨spot, w, -, hd, hveh, -, h⟩
  · rw [h]; exact hi
  · have hkey : spot.spot_id = sid := hk sid spot hd
    rw [h, hkey]
    intro vid s hidx
    simp only at hidx ⊢
    obtain ⟨spot0, v0, hd0, hveh0, hid0⟩ := hi vid s hidx
    have hs : s ≠ sid := by
      intro he
      subst he
      rw [hd] at hd0
      cases hd0
      rw [hveh] at hveh0
      cases hveh0
      rw [← hid0] at hidx
      rw [hno spot w hd hveh] at hidx
      exact Option.noConfusion hidx
    exact ⟨spot0, v0, by rw [dictGet_dictSet_ne _ _ _ _ hs]; exact hd0, hveh0, hid0⟩

/-- Claim C4: on an ElectricOnly spot the vehicle-type check precedes the
occupancy check, so a non-electric vehicle is rejected with the
electric-only error even when the spot is occupied, while an electric
vehicle is accepted whenever the spot is available. -/
theorem electric_admission_ordering (sid : Int) (c : Bool) (occ : Option Vehicle) (v : Vehicle) :
    (v.vehicle_type ≠ "electric" →
      (BaseParkingSpot.mk sid (SpotKind.electric c) occ).park_vehicle (PyValue.vehicle v)
        = Except.error (Err.valueError (msgElectricOnly sid))) ∧
    (v.vehicle_type = "electric" → occ = none →
      (BaseParkingSpot.mk sid (SpotKind.electric c) occ).park_vehicle (PyValue.vehicle v)
        = Except.ok (BaseParkingSpot.mk sid (SpotKind.electric c) (some v))) := by
  constructor
  · intro ht
    exact spot_park_electric_reject _ v c rfl ht
  · intro ht hocc
    subst hocc
    exact spot_park_electric_ok _ v c rfl ht rfl

/-- Witness for claim C4: a sedan is rejected by an occupied electric spot
with the electric-only error, and an electric vehicle is accepted by a free
one. -/
theorem electric_admission_ordering_witness :
    (carSedan.vehicle_type ≠ "electric" ∧
      (BaseParkingSpot.mk 2 (SpotKind.electric true) (some carElectric)).park_vehicle
          (PyValue.vehicle carSedan)
        = Except.error (Err.valueError (msgElectricOnly 2))) ∧
    (carElectric.vehicle_type = "electric" ∧
      (BaseParkingSpot.mk 2 (SpotKind.electric true) none).park_vehicle
          (PyValue.vehicle carElectric)
        = Except.ok (BaseParkingSpot.mk 2 (SpotKind.electric true) (some carElectric))) :=
  ⟨⟨by decide, (electric_admission_ordering 2 true (some carElectric) carSedan).1 (by decide)⟩,
   ⟨by decide, (electric_admission_ordering 2 true none carElectric).2 (by decide) rfl⟩⟩

/-- Claim C6: add_spot on an already registered non-negative id returns an
absent result instead of raising and leaves the lot, hence the existing
spot, its type, its occupant, available_spots and vehicle_to_spot, exactly
unchanged. -/
theorem add_spot_duplicate_noop (l : ParkingLot) (sid : Int) (ty : String)
    (h0 : 0 ≤ sid) (h : (dictGet l.parking_spots sid).isSome) :
    l.add_spot sid ty = ⟨l, none, none⟩ := by
  unfold ParkingLot.add_spot
  simp [Int.not_lt.mpr h0, h]

/-- Witness for claim C6: a second add of spot 3 returns the absent result
and changes nothing. -/
theorem add_spot_duplicate_noop_witness :
    (0 : Int) ≤ 3 ∧ (dictGet exLotStd3.parking_spots 3).isSome = true ∧
      exLotStd3.add_spot 3 "electric" = ⟨exLotStd3, none, none⟩ :=
  ⟨by decide, by decide, add_spot_duplicate_noop exLotStd3 3 "electric" (by decide) (by decide)⟩

/-- Claim C10: park_vehicle given a non-Vehicle argument raises the type
error before reading or changing any lot state: the lot comes back exactly
unchanged and no event fires, for every lot and every optional spot id,
so the guard precedes the already-parked check and any spot selection. -/
theorem park_non_vehicle_guard (l : ParkingLot) (desc : String) (osid : Option Int) :
    l.park_vehicle (PyValue.other desc) osid = ⟨l, [], some (Err.typeError msgNotVehicle)⟩ := rfl

/-- Claim C7 (amended): explicit-spot park error precedence is already
parked first, then the invalid-argument error for a negative id, then
invalid spot for an unregistered id, then already occupied, the latter
checked at the lot level before the spot type check, so an occupied
ElectricOnly spot rejects a sedan with already occupied.  The amendment
adds the invalid-argument case, which the code raises for a negative
(necessarily unregistered) id where the claim predicted invalid spot. -/
theorem park_explicit_error_precedence (l : ParkingLot) (v : Vehicle) (sid : Int) :
    ((dictGet l.vehicle_to_spot v.vehicle_id).isSome →
      l.park_vehicle (PyValue.vehicle v) (some sid)
        = ⟨l, [], some (Err.runtimeError msgAlreadyParked)⟩) ∧
    (dictGet l.vehicle_to_spot v.vehicle_id = none → sid < 0 →
      l.park_vehicle (PyValue.vehicle v) (some sid)
        = ⟨l, [], some (Err.valueError msgBadSpotId)⟩) ∧
    (dictGet l.vehicle_to_spot v.vehicle_id = none → 0 ≤ sid →
      dictGet l.parking_spots sid = none →
      l.park_vehicle (PyValue.vehicle v) (some sid)
        = ⟨l, [], some (Err.valueError (msgInvalidSpot sid))⟩) ∧
    (∀ spot w, dictGet l.vehicle_to_spot v.vehicle_id = none → 0 ≤ sid →
      dictGet l.parking_spots sid = some spot → spot.vehicle = some w →
      l.park_vehicle (PyValue.vehicle v) (some sid)
        = ⟨l, [], some (Err.valueError (msgOccupied spot.spot_id))⟩) := by
  refine ⟨?_, ?_, ?_, ?_⟩
  · intro hidx
    unfold ParkingLot.park_vehicle
    simp [hidx]
  · intro hidx hneg
    unfold ParkingLot.park_vehicle
    simp [hidx, get_spot_or_raise_of_neg l sid hneg]
  · intro hidx h0 hd
    unfold ParkingLot.park_vehicle
    simp [hidx, get_spot_or_raise_of_missing l sid h0 hd]
  · intro spot w hidx h0 hd hveh
    unfold ParkingLot.park_vehicle
    simp [hidx, get_spot_or_raise_of_found l sid spot h0 hd,
      BaseParkingSpot.is_available, hveh]

/-- Counterexample for claim C7 as stated: for the fresh vehicle and the
unregistered id -1 the code raises the invalid-argument error, not the
invalid-spot error the claim predicts for unregistered ids. -/
theorem park_explicit_error_precedence_counterexample :
    dictGet exLotStd3.vehicle_to_spot carSedan.vehicle_id = none ∧
    dictGet exLotStd3.parking_spots (-1) = none ∧
    (exLotStd3.park_vehicle (PyValue.vehicle carSedan) (some (-1))).err
      = some (Err.valueError msgBadSpotId) ∧
    (exLotStd3.park_vehicle (PyValue.vehicle carSedan) (some (-1))).err
      ≠ some (Err.valueError (msgInvalidSpot (-1))) := by decide

/-- Witness for claim C7: parking at the unregistered id 5 fails with the
invalid-spot error and leaves the lot unchanged. -/
theorem park_explicit_error_precedence_witness :
    exLotStd3.park_vehicle (PyValue.vehicle carSedan) (some 5)
      = ⟨exLotStd3, [], some (Err.valueError (msgInvalidSpot 5))⟩ :=
  (park_explicit_error_precedence exLotStd3 carSedan 5).2.2.1 (by decide) (by decide) (by decide)

/-- Claim C9: when the reverse index maps a vehicle id to a registered spot
whose occupant is absent (the state release_spot leaves behind),
unpark_vehicle first removes the index entry and then raises the
already-empty error, so a failing unpark_vehicle still mutates the reverse
index while spots and available_spots stay untouched. -/
theorem unpark_stale_index_mutates (l : ParkingLot) (vid : String) (sid : Int)
    (spot : BaseParkingSpot)
    (hblank : pyStrip vid ≠ "")
    (hidx : dictGet l.vehicle_to_spot vid = some sid)
    (h0 : 0 ≤ sid)
    (hkey : spot.spot_id = sid)
    (hd : dictGet l.parking_spots sid = some spot)
    (hveh : spot.vehicle = none) :
    l.unpark_vehicle vid =
      ⟨{ l with vehicle_to_spot := dictPop l.vehicle_to_spot vid }, [],
        some (Err.runtimeError (msgSpotEmptyDot sid))⟩ ∧
    dictGet (l.unpark_vehicle vid).lot.vehicle_to_spot vid = none := by
  have he : l.unpark_vehicle vid =
      ⟨{ l with vehicle_to_spot := dictPop l.vehicle_to_spot vid }, [],
        some (Err.runtimeError (msgSpotEmptyDot sid))⟩ := by
    unfold ParkingLot.unpark_vehicle
    simp [hblank, hidx,
      get_spot_or_raise_of_found { l with vehicle_to_spot := dictPop l.vehicle_to_spot vid }
        sid spot h0 hd,
      free_spot_of_empty _ spot hveh, hkey]
  refine ⟨he, ?_⟩
  rw [he]
  exact dictGet_dictPop_self _ _

/-- Witness for claim C9: on the reachable stale lot the failing unpark
removes the index entry of carSedan while raising already-empty. -/
theorem unpark_stale_index_mutates_witness :
    (pyStrip carSedan.vehicle_id ≠ "" ∧
     dictGet exLotStale.vehicle_to_spot carSedan.vehicle_id = some 0) ∧
    (exLotStale.unpark_vehicle carSedan.vehicle_id =
      ⟨{ exLotStale with
          vehicle_to_spot := dictPop exLotStale.vehicle_to_spot carSedan.vehicle_id }, [],
        some (Err.runtimeError (msgSpotEmptyDot 0))⟩ ∧
     dictGet (exLotStale.unpark_vehicle carSedan.vehicle_id).lot.vehicle_to_spot
        carSedan.vehicle_id = none) :=
  ⟨⟨by decide, by decide⟩,
   unpark_stale_index_mutates exLotStale carSedan.vehicle_id 0
     ⟨0, SpotKind.standard, none⟩ (by decide) (by decide) (by decide) (by decide)
     (by decide) (by decide)⟩

/-- Claim C8: a successful unpark_vehicle fires spot_freed first and
vehicle_unparked second, and both fire after the index entry was removed
and the occupant cleared: the lot state each callback observes already has
the entry gone and the spot empty. -/
theorem unpark_event_sequence (l : ParkingLot) (vid : String) (sid : Int)
    (spot : BaseParkingSpot) (w : Vehicle)
    (hblank : pyStrip vid ≠ "")
    (hidx : dictGet l.vehicle_to_spot vid = some sid)
    (h0 : 0 ≤ sid)
    (hkey : spot.spot_id = sid)
    (hd : dictGet l.parking_spots sid = some spot)
    (hveh : spot.vehicle = some w) :
    (l.unpark_vehicle vid).err = none ∧
    (l.unpark_vehicle vid).events =
      [Event.spot_freed { spot with vehicle := none } (l.unpark_vehicle vid).lot,
       Event.vehicle_unparked vid { spot with vehicle := none } (l.unpark_vehicle vid).lot] ∧
    dictGet (l.unpark_vehicle vid).lot.vehicle_to_spot vid = none ∧
    dictGet (l.unpark_vehicle vid).lot.parking_spots sid = some { spot with vehicle := none } := by
  have he : l.unpark_vehicle vid =
      ⟨⟨dictSet l.parking_spots spot.spot_id { spot with vehicle := none },
        dictPop l.vehicle_to_spot vid,
        setAdd l.available_spots spot.spot_id⟩,
       [Event.spot_freed { spot with vehicle := none }
          ⟨dictSet l.parking_spots spot.spot_id { spot with vehicle := none },
           dictPop l.vehicle_to_spot vid,
           setAdd l.available_spots spot.spot_id⟩,
        Event.vehicle_unparked vid { spot with vehicle := none }
          ⟨dictSet l.parking_spots spot.spot_id { spot with vehicle := none },
           dictPop l.vehicle_to_spot vid,
           setAdd l.available_spots spot.spot_id⟩],
       none⟩ := by
    unfold ParkingLot.unpark_vehicle
    simp [hblank, hidx,
      get_spot_or_raise_of_found { l with vehicle_to_spot := dictPop l.vehicle_to_spot vid }
        sid spot h0 hd,
      free_spot_of_occupied _ spot w hveh]
  rw [he]
  refine ⟨rfl, rfl, dictGet_dictPop_self _ _, ?_⟩
  rw [hkey]
  exact dictGet_dictSet_self _ _ _

/-- Witness for claim C8: unparking carSedan from the lot where it occupies
spot 0 fires spot_freed then vehicle_unparked, both observing the final
state. -/
theorem unpark_event_sequence_witness :
    dictGet exLotParked.vehicle_to_spot carSedan.vehicle_id = some 0 ∧
    ((exLotParked.unpark_vehicle carSedan.vehicle_id).err = none ∧
     (exLotParked.unpark_vehicle carSedan.vehicle_id).events =
       [Event.spot_freed ⟨0, SpotKind.standard, none⟩
          (exLotParked.unpark_vehicle carSedan.vehicle_id).lot,
        Event.vehicle_unparked carSedan.vehicle_id ⟨0, SpotKind.standard, none⟩
          (exLotParked.unpark_vehicle carSedan.vehicle_id).lot] ∧
     dictGet (exLotParked.unpark_vehicle carSedan.vehicle_id).lot.vehicle_to_spot
        carSedan.vehicle_id = none ∧
     dictGet (exLotParked.unpark_vehicle carSedan.vehicle_id).lot.parking_spots 0
        = some ⟨0, SpotKind.standard, none⟩) :=
  ⟨by decide,
   unpark_event_sequence exLotParked carSedan.vehicle_id 0
     ⟨0, SpotKind.standard, some carSedan⟩ carSedan (by decide) (by decide) (by decide)
     (by decide) (by decide) (by decide)⟩

/-- Claim C5 (amended): when spot 3 is registered and available, the
vehicle is not indexed, its id is non-blank, and spot 3 admits the vehicle
(a Standard spot, or an electric vehicle), park_vehicle at spot 3 followed
by unpark_vehicle succeeds and restores spot 3 to available with 3 in
available_spots, removes the vehicle from the reverse index, and leaves
every other spot, membership and index entry as before.  The amendment adds
the admission condition: with an ElectricOnly spot 3 and a non-electric
vehicle the pair does not succeed, as the counterexample shows. -/
theorem park_unpark_round_trip (l : ParkingLot) (v : Vehicle) (spot : BaseParkingSpot)
    (hspot : dictGet l.parking_spots 3 = some spot)
    (hkey : spot.spot_id = 3)
    (hfree : spot.vehicle = none)
    (hidx : dictGet l.vehicle_to_spot v.vehicle_id = none)
    (hblank : pyStrip v.vehicle_id ≠ "")
    (hadm : spot.kind = SpotKind.standard ∨ v.vehicle_type = "electric") :
    (l.park_vehicle (PyValue.vehicle v) (some 3)).err = none ∧
    ((l.park_vehicle (PyValue.vehicle v) (some 3)).lot.unpark_vehicle v.vehicle_id).err = none ∧
    dictGet ((l.park_vehicle (PyValue.vehicle v) (some 3)).lot.unpark_vehicle
        v.vehicle_id).lot.parking_spots 3 = some { spot with vehicle := none } ∧
    (3 : Int) ∈ ((l.park_vehicle (PyValue.vehicle v) (some 3)).lot.unpark_vehicle
        v.vehicle_id).lot.available_spots ∧
    dictGet ((l.park_vehicle (PyValue.vehicle v) (some 3)).lot.unpark_vehicle
        v.vehicle_id).lot.vehicle_to_spot v.vehicle_id = none ∧
    (∀ s, s ≠ 3 →
      dictGet ((l.park_vehicle (PyValue.vehicle v) (some 3)).lot.unpark_vehicle
        v.vehicle_id).lot.parking_spots s = dictGet l.parking_spots s) ∧
    (∀ s : Int, s ≠ 3 →
      (s ∈ ((l.park_vehicle (PyValue.vehicle v) (some 3)).lot.unpark_vehicle
        v.vehicle_id).lot.available_spots ↔ s ∈ l.available_spots)) ∧
    (∀ u, u ≠ v.vehicle_id →
      dictGet ((l.park_vehicle (PyValue.vehicle v) (some 3)).lot.unpark_vehicle
        v.vehicle_id).lot.vehicle_to_spot u = dictGet l.vehicle_to_spot u) := by
  have hidxb : ¬ (dictGet l.vehicle_to_spot v.vehicle_id).isSome = true := by
    rw [hidx]
    simp
  have hpark : spot.park_vehicle (PyValue.vehicle v)
      = Except.ok { spot with vehicle := some v } := by
    rcases hadm with hstd | hel
    · exact spot_park_standard_free spot v hstd hfree
    · cases hkind : spot.kind with
      | standard =>
        rw [← hkind]
        exact spot_park_standard_free spot v hkind hfree
      | electric c =>
        rw [← hkind]
        exact spot_park_electric_ok spot v c hkind hel hfree
  have he1 : l.park_vehicle (PyValue.vehicle v) (some 3) =
      ⟨⟨dictSet l.parking_spots spot.spot_id { spot with vehicle := some v },
        dictSet l.vehicle_to_spot v.vehicle_id spot.spot_id,
        setDiscard l.available_spots spot.spot_id⟩,
       [Event.vehicle_parked v { spot with vehicle := some v }
          ⟨dictSet l.parking_spots spot.spot_id { spot with vehicle := some v },
           dictSet l.vehicle_to_spot v.vehicle_id spot.spot_id,
           setDiscard l.available_spots spot.spot_id⟩],
       none⟩ := by
    unfold ParkingLot.park_vehicle
    simp [hidxb, get_spot_or_raise_of_found l 3 spot (by norm_num) hspot,
      BaseParkingSpot.is_available, hfree, hpark]
  have hidx2 : dictGet (dictSet l.vehicle_to_spot v.vehicle_id spot.spot_id)
      v.vehicle_id = some 3 := by
    rw [dictGet_dictSet_self, hkey]
  have hd2 : dictGet (dictSet l.parking_spots spot.spot_id { spot with vehicle := some v }) 3
      = some { spot with vehicle := some v } := by
    rw [hkey]
    exact dictGet_dictSet_self _ _ _
  have he2 : ((l.park_vehicle (PyValue.vehicle v) (some 3)).lot.unpark_vehicle v.vehicle_id) =
      ⟨⟨dictSet (dictSet l.parking_spots spot.spot_id { spot with vehicle := some v })
          spot.spot_id { spot with vehicle := none },
        dictPop (dictSet l.vehicle_to_spot v.vehicle_id spot.spot_id) v.vehicle_id,
        setAdd (setDiscard l.available_spots spot.spot_id) spot.spot_id⟩,
       [Event.spot_freed { spot with vehicle := none }
          ⟨dictSet (dictSet l.parking_spots spot.spot_id { spot with vehicle := some v })
              spot.spot_id { spot with vehicle := none },
            dictPop (dictSet l.vehicle_to_spot v.vehicle_id spot.spot_id) v.vehicle_id,
            setAdd (setDiscard l.available_spots spot.spot_id) spot.spot_id⟩,
        Event.vehicle_unparked v.vehicle_id { spot with vehicle := none }
          ⟨dictSet (dictSet l.parking_spots spot.spot_id { spot with vehicle := some v })
              spot.spot_id { spot with vehicle := none },
            dictPop (dictSet l.vehicle_to_spot v.vehicle_id spot.spot_id) v.vehicle_id,
            setAdd (setDiscard l.available_spots spot.spot_id) spot.spot_id⟩],
       none⟩ := by
    rw [he1]
    unfold ParkingLot.unpark_vehicle
    simp only [hblank, hidx2, if_false]
    rw [get_spot_or_raise_of_found _ 3 { spot with vehicle := some v } (by norm_num) hd2]
    simp [free_spot_of_occupied _ { spot with vehicle := some v } v rfl]
  rw [he1] at he2 ⊢
  rw [he2]
  refine ⟨rfl, rfl, ?_, ?_, dictGet_dictPop_self _ _, ?_, ?_, ?_⟩
  · rw [hkey]
    exact dictGet_dictSet_self _ _ _
  · rw [mem_setAdd]
    right
    exact hkey.symm
  · intro s hs
    rw [hkey, dictGet_dictSet_ne _ _ _ _ hs, dictGet_dictSet_ne _ _ _ _ hs]
  · intro s hs
    rw [hkey, mem_setAdd, mem_setDiscard]
    constructor
    · rintro (⟨hm, -⟩ | he)
      · exact hm
      · exact absurd he hs
    · intro hm
      exact Or.inl ⟨hm, hs⟩
  · intro u hu
    rw [dictGet_dictPop_ne _ _ _ hu, dictGet_dictSet_ne _ _ _ _ hu]

/-- Counterexample for claim C5 as stated: when spot 3 is ElectricOnly and
the vehicle a sedan, spot 3 is registered and available and the vehicle
unindexed, yet the park half of the round trip raises instead of
succeeding. -/
theorem park_unpark_round_trip_counterexample :
    dictGet exLotElec3.parking_spots 3 = some ⟨3, SpotKind.electric true, none⟩ ∧
    dictGet exLotElec3.vehicle_to_spot carSedan.vehicle_id = none ∧
    (exLotElec3.park_vehicle (PyValue.vehicle carSedan) (some 3)).err
      = some (Err.valueError (msgElectricOnly 3)) := by decide

/-- Witness for claim C5: the round trip through standard spot 3 with
carSedan restores the lot. -/
theorem park_unpark_round_trip_witness :
    (exLotStd3.park_vehicle (PyValue.vehicle carSedan) (some 3)).err = none ∧
    ((exLotStd3.park_vehicle (PyValue.vehicle carSedan) (some 3)).lot.unpark_vehicle
        carSedan.vehicle_id).err = none ∧
    dictGet ((exLotStd3.park_vehicle (PyValue.vehicle carSedan) (some 3)).lot.unpark_vehicle
        carSedan.vehicle_id).lot.parking_spots 3 = some ⟨3, SpotKind.standard, none⟩ :=
  have h := park_unpark_round_trip exLotStd3 carSedan ⟨3, SpotKind.standard, none⟩
    (by decide) (by decide) (by decide) (by decide) (by decide) (Or.inl (by decide))
  ⟨h.1, h.2.1, h.2.2.1⟩

/-- Claim C1 (amended): in a reachable lot satisfying free-set consistency,
the invariant is preserved by add_spot, by park_vehicle with an explicit
spot id, by unpark_vehicle, by release_spot, and by auto-assign
park_vehicle whenever it returns normally.  The case the original claim
also covered, auto-assign park_vehicle whose popped spot rejects the
vehicle, is excluded: there the popped id is lost from available_spots
while the spot stays empty, as the counterexample shows. -/
theorem freeSet_consistency_preservation (l : ParkingLot)
    (hr : l.Reachable) (hf : l.FreeSetInv) :
    (∀ sid ty, (l.add_spot sid ty).lot.FreeSetInv) ∧
    (∀ arg sid, (l.park_vehicle arg (some sid)).lot.FreeSetInv) ∧
    (∀ arg, (l.park_vehicle arg none).err = none → (l.park_vehicle arg none).lot.FreeSetInv) ∧
    (∀ vid, (l.unpark_vehicle vid).lot.FreeSetInv) ∧
    (∀ sid, (l.release_spot sid).lot.FreeSetInv) :=
  have hk := reachable_keyInv l hr
  ⟨fun sid ty => freeSetInv_add_spot l sid ty hf,
   fun arg sid => freeSetInv_park_vehicle l arg (some sid) hk hf (Or.inl rfl),
   fun arg he => freeSetInv_park_vehicle l arg none hk hf (Or.inr he),
   fun vid => freeSetInv_unpark_vehicle l vid hk hf,
   fun sid => freeSetInv_release_spot l sid hk hf⟩

/-- Counterexample for claim C1 as stated: the reachable lot left by an
auto-assign park of a sedan into a lot whose only spot is electric violates
free-set consistency: spot 0 is registered and empty yet not in
available_spots. -/
theorem freeSet_consistency_counterexample :
    exLotPopped.Reachable ∧
    dictGet exLotPopped.parking_spots 0 = some ⟨0, SpotKind.electric true, none⟩ ∧
    (0 : Int) ∉ exLotPopped.available_spots ∧
    ¬ exLotPopped.FreeSetInv := by
  refine ⟨?_, by decide, by decide, ?_⟩
  · exact ParkingLot.Reachable.park_vehicle _ _ _
      (ParkingLot.Reachable.add_spot _ 0 "electric" ParkingLot.Reachable.init)
  · intro hf
    have h : (0 : Int) ∈ exLotPopped.available_spots :=
      (hf 0 ⟨0, SpotKind.electric true, none⟩ (by decide)).mpr rfl
    exact absurd h (by decide)

/-- Witness for claim C1: from the empty lot, which is reachable and
consistent, adding spot 5 preserves free-set consistency. -/
theorem freeSet_consistency_preservation_witness :
    ParkingLot.empty.Reachable ∧ ParkingLot.empty.FreeSetInv ∧
    (ParkingLot.empty.add_spot 5 "standard").lot.FreeSetInv :=
  ⟨ParkingLot.Reachable.init, freeSetInv_empty,
   (freeSet_consistency_preservation ParkingLot.empty ParkingLot.Reachable.init
      freeSetInv_empty).1 5 "standard"⟩

/-- Claim C3 (amended): in a reachable lot satisfying index consistency,
the invariant is preserved by add_spot, by park_vehicle (with or without an
explicit spot id, succeeding or failing) and by unpark_vehicle, and by
release_spot provided the released spot does not hold an indexed vehicle.
The case the original claim also covered, release_spot on a spot holding an
indexed occupant, is excluded: it clears the occupant but leaves the
reverse-index entry stale, as the counterexample shows. -/
theorem index_consistency_preservation (l : ParkingLot)
    (hr : l.Reachable) (hi : l.IndexInv) :
    (∀ sid ty, (l.add_spot sid ty).lot.IndexInv) ∧
    (∀ arg osid, (l.park_vehicle arg osid).lot.IndexInv) ∧
    (∀ vid, (l.unpark_vehicle vid).lot.IndexInv) ∧
    (∀ sid, (∀ spot w, dictGet l.parking_spots sid = some spot → spot.vehicle = some w →
        dictGet l.vehicle_to_spot w.vehicle_id = none) →
      (l.release_spot sid).lot.IndexInv) :=
  have hk := reachable_keyInv l hr
  ⟨fun sid ty => indexInv_add_spot l sid ty hi,
   fun arg osid => indexInv_park_vehicle l arg osid hk hi,
   fun vid => indexInv_unpark_vehicle l vid hk hi,
   fun sid hno => indexInv_release_spot l sid hk hi hno⟩

/-- Counterexample for claim C3 as stated: releasing spot 0 while carSedan
is parked there yields a reachable lot where the index still maps carSedan
to spot 0 although the spot occupant is absent. -/
theorem index_consistency_counterexample :
    exLotStale.Reachable ∧
    dictGet exLotStale.vehicle_to_spot carSedan.vehicle_id = some 0 ∧
    dictGet exLotStale.parking_spots 0 = some ⟨0, SpotKind.standard, none⟩ ∧
    ¬ exLotStale.IndexInv := by
  refine ⟨?_, by decide, by decide, ?_⟩
  · exact ParkingLot.Reachable.release_spot _ 0
      (ParkingLot.Reachable.park_vehicle _ _ _
        (ParkingLot.Reachable.add_spot _ 0 "standard" ParkingLot.Reachable.init))
  · intro hi
    obtain ⟨spot0, v0, hd0, hveh0, -⟩ := hi carSedan.vehicle_id 0 (by decide)
    have hsp : spot0 = ⟨0, SpotKind.standard, none⟩ := by
      have hd : dictGet exLotStale.parking_spots 0
          = some ⟨0, SpotKind.standard, none⟩ := by decide
      rw [hd] at hd0
      cases hd0
      rfl
    rw [hsp] at hveh0
    exact Option.noConfusion hveh0

/-- Witness for claim C3: from the empty lot, which is reachable and
consistent, adding spot 5 preserves index consistency. -/
theorem index_consistency_preservation_witness :
    ParkingLot.empty.Reachable ∧ ParkingLot.empty.IndexInv ∧
    (ParkingLot.empty.add_spot 5 "standard").lot.IndexInv :=
  ⟨ParkingLot.Reachable.init, indexInv_empty,
   (index_consistency_preservation ParkingLot.empty ParkingLot.Reachable.init
      indexInv_empty).1 5 "standard"⟩

/-- Claim C2 (amended): failures of add_spot, of release_spot and of
explicit-spot park_vehicle leave the lot exactly unchanged; auto-assign
park_vehicle failures raised before the pop (already parked, no spots
available) and unpark_vehicle failures raised before the index pop (blank
or unknown id) do as well.  On normal return every operation
re-establishes free-set and index consistency, except that release_spot
guarantees index consistency only when the freed spot held no indexed
vehicle.  Excluded, as the counterexamples of claims C1 and C3 and the one
below force: an auto-assign park_vehicle that pops a spot and then raises
loses the popped id, a failing unpark_vehicle past the index pop keeps the
pop, and a successful release_spot can leave a stale index entry. -/
theorem atomicity_on_failure (l : ParkingLot)
    (hr : l.Reachable) (hf : l.FreeSetInv) (hi : l.IndexInv) :
    (∀ sid ty, (l.add_spot sid ty).err ≠ none → (l.add_spot sid ty).lot = l) ∧
    (∀ arg sid, (l.park_vehicle arg (some sid)).err ≠ none →
      (l.park_vehicle arg (some sid)).lot = l) ∧
    (∀ v : Vehicle, (dictGet l.vehicle_to_spot v.vehicle_id).isSome →
      l.park_vehicle (PyValue.vehicle v) none
        = ⟨l, [], some (Err.runtimeError msgAlreadyParked)⟩) ∧
    (∀ v : Vehicle, dictGet l.vehicle_to_spot v.vehicle_id = none →
      l.available_spots = [] →
      l.park_vehicle (PyValue.vehicle v) none
        = ⟨l, [], some (Err.runtimeError msgNoSpots)⟩) ∧
    (∀ vid, dictGet l.vehicle_to_spot vid = none → (l.unpark_vehicle vid).lot = l) ∧
    (∀ sid, (l.release_spot sid).err ≠ none → (l.release_spot sid).lot = l) ∧
    (∀ sid ty, (l.add_spot sid ty).err = none →
      (l.add_spot sid ty).lot.FreeSetInv ∧ (l.add_spot sid ty).lot.IndexInv) ∧
    (∀ arg osid, (l.park_vehicle arg osid).err = none →
      (l.park_vehicle arg osid).lot.FreeSetInv ∧ (l.park_vehicle arg osid).lot.IndexInv) ∧
    (∀ vid, (l.unpark_vehicle vid).err = none →
      (l.unpark_vehicle vid).lot.FreeSetInv ∧ (l.unpark_vehicle vid).lot.IndexInv) ∧
    (∀ sid, (l.release_spot sid).err = none →
      (l.release_spot sid).lot.FreeSetInv ∧
      ((∀ spot w, dictGet l.parking_spots sid = some spot → spot.vehicle = some w →
          dictGet l.vehicle_to_spot w.vehicle_id = none) →
        (l.release_spot sid).lot.IndexInv)) := by
  have hk := reachable_keyInv l hr
  refine ⟨?_, ?_, ?_, ?_, ?_, ?_, ?_, ?_, ?_, ?_⟩
  · intro sid ty herr
    rcases add_spot_cases l sid ty with ⟨-, h⟩ | ⟨he, -, h⟩ | ⟨spot, -, -, -, -, he, -⟩
    · exact h
    · exact h
    · exact absurd he herr
  · intro arg sid herr
    rcases park_vehicle_cases l arg (some sid) with h | ⟨hn, -, -, -, -, -⟩ |
      ⟨v, s, spot, a1, -, he, -, -, -, -, -, -⟩
    · exact h
    · exact Option.noConfusion hn
    · exact absurd he herr
  · intro v hidx
    unfold ParkingLot.park_vehicle
    simp [hidx]
  · intro v hidx ha
    unfold ParkingLot.park_vehicle ParkingLot.find_available_spot
    simp [hidx, ha]
  · intro vid hidx
    by_cases hblank : pyStrip vid = ""
    · unfold ParkingLot.unpark_vehicle
      simp [hblank]
    · unfold ParkingLot.unpark_vehicle
      simp [hblank, hidx]
  · intro sid herr
    rcases release_spot_cases l sid with ⟨-, h, -⟩ | ⟨spot, w, -, -, -, he, -⟩
    · exact h
    · exact absurd he herr
  · intro sid ty _
    exact ⟨freeSetInv_add_spot l sid ty hf, indexInv_add_spot l sid ty hi⟩
  · intro arg osid he
    exact ⟨freeSetInv_park_vehicle l arg osid hk hf (Or.inr he),
      indexInv_park_vehicle l arg osid hk hi⟩
  · intro vid _
    exact ⟨freeSetInv_unpark_vehicle l vid hk hf, indexInv_unpark_vehicle l vid hk hi⟩
  · intro sid _
    exact ⟨freeSetInv_release_spot l sid hk hf,
      fun hno => indexInv_release_spot l sid hk hi hno⟩

/-- Counterexample for claim C2 as stated: on the reachable stale lot the
unpark of carSedan raises and yet the post state differs from the pre
state, its reverse-index entry having been removed. -/
theorem atomicity_on_failure_counterexample :
    exLotStale.Reachable ∧
    (exLotStale.unpark_vehicle carSedan.vehicle_id).err.isSome = true ∧
    (exLotStale.unpark_vehicle carSedan.vehicle_id).lot ≠ exLotStale := by
  refine ⟨?_, by decide, by decide⟩
  exact ParkingLot.Reachable.release_spot _ 0
    (ParkingLot.Reachable.park_vehicle _ _ _
      (ParkingLot.Reachable.add_spot _ 0 "standard" ParkingLot.Reachable.init))

/-- Witness for claim C2: on the empty lot, which is reachable and
consistent, the failing release of the unregistered spot 7 leaves the lot
unchanged. -/
theorem atomicity_on_failure_witness :
    ParkingLot.empty.Reachable ∧
    (ParkingLot.empty.release_spot 7).err ≠ none ∧
    (ParkingLot.empty.release_spot 7).lot = ParkingLot.empty :=
  have h1 : ParkingLot.empty.Reachable := ParkingLot.Reachable.init
  have h2 : (ParkingLot.empty.release_spot 7).err ≠ none := by decide
  ⟨h1, h2,
   (atomicity_on_failure ParkingLot.empty h1 freeSetInv_empty indexInv_empty).2.2.2.2.2.1 7 h2⟩
